import Mathlib

/-!
# Verification of the Jekyll batch translator (`jekyll_translator.py`)

A shallow embedding of the script's pipeline:

* `generate_slug` — the pure slug generator,
* `translate_text` / `translate_markdown` — fail-open wrappers around the
  external OpenAI call (the external service is an oracle
  `String → Option String`; `none` models any raised fault),
* `translate_front_matter` — the front-matter transformer over a `Yaml`
  value model, with Python's dynamic-typing failures made explicit as
  `Except PyErr`,
* `splitFM` / `translate_file` — the per-file transformation (the
  front-matter regex split and the YAML-library calls),
* `processOne` / `processDir` — the directory orchestrator with its
  skip-if-destination-exists check.

Machine strings are lists of `Char`; Python exceptions are `Except PyErr`
values that propagate exactly where the script has no `try`/`except`.
-/

/-! ## Character helpers (Python `str` semantics used by the script) -/

/-- The character class of the regex `[a-z0-9]` in `generate_slug`. -/
def isAlnum (c : Char) : Bool :=
  (0x61 ≤ c.toNat && c.toNat ≤ 0x7A) || (0x30 ≤ c.toNat && c.toNat ≤ 0x39)

/-- A character accepted in a finished slug: `[a-z0-9]` or the hyphen. -/
def isSlugChar (c : Char) : Bool := isAlnum c || c == '-'

/-- Bool test for the hyphen character, used by `str.strip('-')`. -/
def isHyphB (c : Char) : Bool := c == '-'

/-- Python's `\s` (ASCII range): space, `\t`, `\n`, `\r`, `\x0b`, `\x0c`. -/
def isWS (c : Char) : Bool :=
  c.toNat = 0x20 || c.toNat = 0x9 || c.toNat = 0xA ||
  c.toNat = 0xD || c.toNat = 0xB || c.toNat = 0xC

/-- Model of Python `str.lower` on one character, covering ASCII and the
Latin-1 uppercase letters (`À`–`Þ` except `×`); all other characters are
returned unchanged.  (`str.lower` is a trusted library routine; the script
only ever lowercases title text.) -/
def pyLowerChar (c : Char) : Char :=
  if 0x41 ≤ c.toNat && c.toNat ≤ 0x5A then Char.ofNat (c.toNat + 32)
  else if 0xC0 ≤ c.toNat && c.toNat ≤ 0xDE && c.toNat != 0xD7 then Char.ofNat (c.toNat + 32)
  else c

/-- Canonical (NFD) decomposition table for the accented Latin-1 lowercase
letters; modelled from the Unicode data used by
`unicodedata.normalize('NFD', ·)` (a trusted library routine).  Characters
not in the table decompose to themselves. -/
def nfdTable : List (Char × List Char) :=
  [ ('à', ['a', '̀']), ('á', ['a', '́']), ('â', ['a', '̂']),
    ('ã', ['a', '̃']), ('ä', ['a', '̈']), ('å', ['a', '̊']),
    ('ç', ['c', '̧']),
    ('è', ['e', '̀']), ('é', ['e', '́']), ('ê', ['e', '̂']),
    ('ë', ['e', '̈']),
    ('ì', ['i', '̀']), ('í', ['i', '́']), ('î', ['i', '̂']),
    ('ï', ['i', '̈']),
    ('ñ', ['n', '̃']),
    ('ò', ['o', '̀']), ('ó', ['o', '́']), ('ô', ['o', '̂']),
    ('õ', ['o', '̃']), ('ö', ['o', '̈']),
    ('ù', ['u', '̀']), ('ú', ['u', '́']), ('û', ['u', '̂']),
    ('ü', ['u', '̈']),
    ('ý', ['y', '́']), ('ÿ', ['y', '̈']) ]

/-- NFD decomposition of one character (per `nfdTable`). -/
def nfdChar (c : Char) : List Char :=
  match nfdTable.find? (fun e => e.1 == c) with
  | some e => e.2
  | none => [c]

/-- Unicode category "Mn" (nonspacing mark) test, restricted to the
combining-diacritics block `U+0300`–`U+036F` produced by `nfdTable`. -/
def isMn (c : Char) : Bool := 0x300 ≤ c.toNat && c.toNat ≤ 0x36F

/-- The substitution `re.sub(r'[^a-z0-9]+', '-', ·)`: every maximal run of
characters outside `[a-z0-9]` becomes a single hyphen.  The boolean flag
records whether the previous character already emitted a hyphen (i.e. we
are inside such a run). -/
def subRuns (prevHyph : Bool) : List Char → List Char
  | [] => []
  | c :: rest =>
    if isAlnum c then c :: subRuns false rest
    else if prevHyph then subRuns true rest
    else '-' :: subRuns true rest

/-- Drop a maximal trailing run of characters satisfying `p`
(the right half of Python's `str.strip`). -/
def dropTrailIf (p : Char → Bool) : List Char → List Char
  | [] => []
  | c :: rest =>
    match dropTrailIf p rest with
    | [] => if p c then [] else [c]
    | r => c :: r

/-- `str.strip('-')`: remove leading and trailing hyphens. -/
def stripHyphens (l : List Char) : List Char :=
  dropTrailIf isHyphB (l.dropWhile isHyphB)

/-- `generate_slug` (jekyll_translator.py lines 28–37): lowercase, strip
accents via NFD decomposition dropping the nonspacing marks, collapse runs
of characters outside `[a-z0-9]` to single hyphens, strip outer hyphens. -/
def generate_slug (title : String) : String :=
  let lowered := title.data.map pyLowerChar
  let decomposed := (lowered.map nfdChar).flatten
  let unmarked := decomposed.filter (fun c => !(isMn c))
  ⟨stripHyphens (subRuns false unmarked)⟩

/-- "No two consecutive hyphens" as an executable predicate. -/
def noTwoHyphens : List Char → Bool
  | [] => true
  | [_] => true
  | a :: b :: rest => !(a == '-' && b == '-') && noTwoHyphens (b :: rest)

/-! ### Lemmas about the slug machinery -/

theorem isAlnum_ne_hyph {c : Char} (h : isAlnum c = true) : c ≠ '-' := by
  intro he; subst he; simp [isAlnum] at h

theorem isSlugChar_of_isAlnum {c : Char} (h : isAlnum c = true) :
    isSlugChar c = true := by
  simp [isSlugChar, h]

theorem noTwoHyphens_cons {c : Char} {l : List Char} :
    noTwoHyphens (c :: l) = true ↔
      ((∀ d, l.head? = some d → ¬(c = '-' ∧ d = '-')) ∧ noTwoHyphens l = true) := by
  cases l with
  | nil => simp [noTwoHyphens]
  | cons d rest =>
    simp only [noTwoHyphens, Bool.and_eq_true, Bool.not_eq_true',
      Bool.and_eq_false_iff, List.head?]
    constructor
    · rintro ⟨h1, h2⟩
      refine ⟨?_, h2⟩
      rintro d' hd' ⟨hc, hd⟩
      cases hd'
      rcases h1 with h | h
      · rw [beq_eq_false_iff_ne] at h; exact h hc
      · rw [beq_eq_false_iff_ne] at h; exact h hd
    · rintro ⟨h1, h2⟩
      refine ⟨?_, h2⟩
      by_cases hc : c = '-'
      · right
        rw [beq_eq_false_iff_ne]
        intro hd; exact h1 d rfl ⟨hc, hd⟩
      · left
        rw [beq_eq_false_iff_ne]; exact hc

theorem subRuns_mem {l : List Char} :
    ∀ {b : Bool} {c : Char}, c ∈ subRuns b l → isSlugChar c = true := by
  induction l with
  | nil => intro b c h; simp [subRuns] at h
  | cons x rest ih =>
    intro b c h
    simp only [subRuns] at h
    by_cases hx : isAlnum x
    · rw [if_pos hx] at h
      rcases List.mem_cons.mp h with h | h
      · subst h; exact isSlugChar_of_isAlnum hx
      · exact ih h
    · rw [if_neg hx] at h
      cases b with
      | true => exact ih h
      | false =>
        rcases List.mem_cons.mp h with h | h
        · subst h; decide
        · exact ih h

theorem subRuns_true_head {l : List Char} :
    (subRuns true l).head? ≠ some '-' := by
  induction l with
  | nil => simp [subRuns]
  | cons x rest ih =>
    simp only [subRuns]
    by_cases hx : isAlnum x
    · rw [if_pos hx]
      intro h
      exact isAlnum_ne_hyph hx (Option.some.inj h)
    · rw [if_neg hx]
      exact ih

theorem subRuns_noTwo {l : List Char} :
    ∀ {b : Bool}, noTwoHyphens (subRuns b l) = true := by
  induction l with
  | nil => intro b; simp [subRuns, noTwoHyphens]
  | cons x rest ih =>
    intro b
    simp only [subRuns]
    by_cases hx : isAlnum x
    · rw [if_pos hx]
      rw [noTwoHyphens_cons]
      refine ⟨?_, ih⟩
      rintro d _ ⟨hc, _⟩
      exact isAlnum_ne_hyph hx hc
    · rw [if_neg hx]
      cases b with
      | true => exact ih
      | false =>
        simp only [if_neg, Bool.false_eq_true, ite_false]
        rw [noTwoHyphens_cons]
        refine ⟨?_, ih⟩
        rintro d hd ⟨_, hd'⟩
        exact subRuns_true_head (by rw [hd, hd'])

theorem dropWhile_head {p : Char → Bool} {l : List Char} {x : Char}
    (h : (l.dropWhile p).head? = some x) : p x = false := by
  induction l with
  | nil => simp [List.dropWhile] at h
  | cons c rest ih =>
    simp only [List.dropWhile] at h
    by_cases hc : p c
    · rw [hc] at h; simp at h; exact ih h
    · rw [Bool.not_eq_true] at hc
      rw [hc] at h
      simp only [List.head?, Option.some.injEq] at h
      subst h; exact hc

theorem dropWhile_mem {p : Char → Bool} {l : List Char} {c : Char}
    (h : c ∈ l.dropWhile p) : c ∈ l := by
  induction l with
  | nil => simp [List.dropWhile] at h
  | cons x rest ih =>
    simp only [List.dropWhile] at h
    by_cases hx : p x
    · rw [hx] at h; simp at h; exact List.mem_cons_of_mem _ (ih h)
    · rw [Bool.not_eq_true] at hx; rw [hx] at h; simp at h
      exact List.mem_cons.mpr h

theorem dropWhile_noTwo {p : Char → Bool} {l : List Char}
    (h : noTwoHyphens l = true) : noTwoHyphens (l.dropWhile p) = true := by
  induction l with
  | nil => simpa [List.dropWhile] using h
  | cons x rest ih =>
    simp only [List.dropWhile]
    by_cases hx : p x
    · rw [hx]; simp only []
      exact ih (noTwoHyphens_cons.mp h).2
    · rw [Bool.not_eq_true] at hx; rw [hx]; simpa using h

theorem dropTrailIf_mem {p : Char → Bool} {l : List Char} {c : Char}
    (h : c ∈ dropTrailIf p l) : c ∈ l := by
  induction l with
  | nil => simp [dropTrailIf] at h
  | cons x rest ih =>
    simp only [dropTrailIf] at h
    cases hr : dropTrailIf p rest with
    | nil =>
      simp only [hr] at h
      by_cases hx : p x
      · rw [if_pos hx] at h; simp at h
      · rw [if_neg hx] at h; simp at h; simp [h]
    | cons y ys =>
      simp only [hr] at h
      rcases List.mem_cons.mp h with h | h
      · simp [h]
      · exact List.mem_cons_of_mem _ (ih (by rw [hr]; exact h))

theorem dropTrailIf_getLast {p : Char → Bool} {l : List Char} {x : Char}
    (h : (dropTrailIf p l).getLast? = some x) : p x = false := by
  induction l with
  | nil => simp [dropTrailIf] at h
  | cons c rest ih =>
    simp only [dropTrailIf] at h
    cases hr : dropTrailIf p rest with
    | nil =>
      simp only [hr] at h
      by_cases hc : p c
      · rw [if_pos hc] at h; simp at h
      · rw [if_neg hc] at h
        simp only [List.getLast?_singleton, Option.some.injEq] at h
        subst h; rw [Bool.not_eq_true] at hc; exact hc
    | cons y ys =>
      simp only [hr] at h
      rw [List.getLast?_cons_cons] at h
      exact ih (by rw [hr]; exact h)

theorem dropTrailIf_head {p : Char → Bool} {l : List Char} {x : Char}
    (h : (dropTrailIf p l).head? = some x) : l.head? = some x := by
  cases l with
  | nil => simp [dropTrailIf] at h
  | cons c rest =>
    simp only [dropTrailIf] at h
    cases hr : dropTrailIf p rest with
    | nil =>
      simp only [hr] at h
      by_cases hc : p c
      · rw [if_pos hc] at h; simp at h
      · rw [if_neg hc] at h
        simp only [List.head?, Option.some.injEq] at h
        simp [h]
    | cons y ys =>
      simp only [hr] at h
      simp only [List.head?, Option.some.injEq] at h
      simp [h]

theorem dropTrailIf_noTwo {p : Char → Bool} {l : List Char}
    (h : noTwoHyphens l = true) : noTwoHyphens (dropTrailIf p l) = true := by
  induction l with
  | nil => simpa [dropTrailIf] using h
  | cons c rest ih =>
    simp only [dropTrailIf]
    have h2 := (noTwoHyphens_cons.mp h).2
    have h1 := (noTwoHyphens_cons.mp h).1
    cases hr : dropTrailIf p rest with
    | nil =>
      simp only [hr]
      by_cases hc : p c
      · rw [if_pos hc]; rfl
      · rw [if_neg hc]; rfl
    | cons y ys =>
      simp only [hr]
      rw [noTwoHyphens_cons]
      refine ⟨?_, by rw [← hr]; exact ih h2⟩
      rintro d hd hcd
      simp only [List.head?, Option.some.injEq] at hd
      subst hd
      have : rest.head? = some y := dropTrailIf_head (by rw [hr]; rfl)
      exact h1 y this hcd

/-! ### Fixed-point lemmas: slug-shaped text is untouched by every stage -/

theorem isSlugChar_toNat {c : Char} (h : isSlugChar c = true) :
    c.toNat = 0x2D ∨ (0x30 ≤ c.toNat ∧ c.toNat ≤ 0x39) ∨
      (0x61 ≤ c.toNat ∧ c.toNat ≤ 0x7A) := by
  simp only [isSlugChar, isAlnum, Bool.or_eq_true, Bool.and_eq_true,
    decide_eq_true_eq, beq_iff_eq] at h
  rcases h with (⟨h1, h2⟩ | ⟨h1, h2⟩) | h
  · right; right; omega
  · right; left; omega
  · subst h; left; rfl

theorem pyLowerChar_fix {c : Char} (h : isSlugChar c = true) :
    pyLowerChar c = c := by
  have hn := isSlugChar_toNat h
  unfold pyLowerChar
  rw [if_neg, if_neg]
  · simp only [Bool.and_eq_true, decide_eq_true_eq, bne_iff_ne]
    rintro ⟨⟨h1, h2⟩, _⟩; omega
  · simp only [Bool.and_eq_true, decide_eq_true_eq]
    rintro ⟨h1, h2⟩; omega

theorem find?_beq_none {β : Type} (tbl : List (Char × β)) (c : Char)
    (h : ∀ e ∈ tbl, e.1 ≠ c) : tbl.find? (fun e => e.1 == c) = none := by
  induction tbl with
  | nil => rfl
  | cons e rest ih =>
    have he : (e.1 == c) = false := beq_eq_false_iff_ne.mpr (h e (by simp))
    simp only [List.find?, he]
    exact ih (fun e' he' => h e' (List.mem_cons_of_mem _ he'))

theorem nfdTable_keys {e : Char × List Char} (he : e ∈ nfdTable) :
    0xE0 ≤ e.1.toNat := by
  fin_cases he <;> decide

theorem nfdChar_fix {c : Char} (h : isSlugChar c = true) : nfdChar c = [c] := by
  have hn := isSlugChar_toNat h
  unfold nfdChar
  rw [find?_beq_none]
  intro e he heq
  have := nfdTable_keys he
  rw [heq] at this
  omega

theorem isMn_fix {c : Char} (h : isSlugChar c = true) : isMn c = false := by
  have hn := isSlugChar_toNat h
  simp only [isMn, Bool.and_eq_false_iff, decide_eq_false_iff_not]
  left; omega

theorem subRuns_fix : ∀ {l : List Char} {b : Bool},
    (∀ c ∈ l, isSlugChar c = true) → noTwoHyphens l = true →
    (b = true → l.head? ≠ some '-') → subRuns b l = l := by
  intro l
  induction l with
  | nil => intro b _ _ _; rfl
  | cons c rest ih =>
    intro b hmem htwo hhead
    by_cases hc : isAlnum c
    · simp only [subRuns, if_pos hc]
      congr 1
      exact ih (fun d hd => hmem d (List.mem_cons_of_mem _ hd))
        (noTwoHyphens_cons.mp htwo).2 (fun h => by simp at h)
    · have hc' : c = '-' := by
        have := hmem c (by simp)
        simp only [isSlugChar, Bool.or_eq_true] at this
        rcases this with h | h
        · exact absurd h hc
        · exact eq_of_beq h
      cases b with
      | true =>
        exact absurd (by rw [hc']; exact List.head?_cons :
          (c :: rest).head? = some '-') (hhead rfl)
      | false =>
        simp only [subRuns, if_neg hc, Bool.false_eq_true, if_false]
        rw [hc']
        congr 1
        refine ih (fun d hd => hmem d (List.mem_cons_of_mem _ hd))
          (noTwoHyphens_cons.mp htwo).2 ?_
        intro _ hrest
        rcases hh : rest.head? with _ | d
        · rw [hh] at hrest; exact Option.noConfusion hrest
        · rw [hh] at hrest
          have := (noTwoHyphens_cons.mp htwo).1 d hh
          exact this ⟨hc', (Option.some.inj hrest).symm ▸ rfl⟩

theorem dropWhile_fix {l : List Char} (h : l.head? ≠ some '-') :
    l.dropWhile isHyphB = l := by
  cases l with
  | nil => rfl
  | cons c rest =>
    have hc : isHyphB c = false := by
      simp only [isHyphB, beq_eq_false_iff_ne]
      intro he; exact h (by rw [he]; exact List.head?_cons)
    simp [List.dropWhile, hc]

theorem dropTrailIf_fix {p : Char → Bool} : ∀ {l : List Char},
    (∀ x, l.getLast? = some x → p x = false) → dropTrailIf p l = l := by
  intro l
  induction l with
  | nil => intro _; rfl
  | cons c rest ih =>
    intro h
    cases rest with
    | nil =>
      have hc : p c = false := h c rfl
      simp [dropTrailIf, hc]
    | cons d rest' =>
      have hr : dropTrailIf p (d :: rest') = d :: rest' := by
        refine ih ?_
        intro x hx
        exact h x (by rw [List.getLast?_cons_cons]; exact hx)
      have step : dropTrailIf p (c :: d :: rest') =
          match dropTrailIf p (d :: rest') with
          | [] => if p c then [] else [c]
          | r => c :: r := rfl
      rw [step, hr]

/-! ### Shape of `generate_slug` output -/

theorem generate_slug_data (t : String) : (generate_slug t).data
    = stripHyphens (subRuns false
        (((t.data.map pyLowerChar).map nfdChar).flatten.filter (fun c => !(isMn c)))) := rfl

theorem generate_slug_mem {t : String} {c : Char}
    (h : c ∈ (generate_slug t).data) : isSlugChar c = true := by
  rw [generate_slug_data] at h
  exact subRuns_mem (dropWhile_mem (dropTrailIf_mem h))

theorem generate_slug_head (t : String) :
    (generate_slug t).data.head? ≠ some '-' := by
  rw [generate_slug_data]
  intro h
  have := dropWhile_head (dropTrailIf_head h)
  simp [isHyphB] at this

theorem generate_slug_last (t : String) :
    (generate_slug t).data.getLast? ≠ some '-' := by
  rw [generate_slug_data]
  intro h
  have := dropTrailIf_getLast h
  simp [isHyphB] at this

theorem generate_slug_noTwo (t : String) :
    noTwoHyphens (generate_slug t).data = true := by
  rw [generate_slug_data]
  exact dropTrailIf_noTwo (dropWhile_noTwo subRuns_noTwo)

theorem flatten_map_of_singleton {l : List Char} {f : Char → List Char}
    (h : ∀ c ∈ l, f c = [c]) : (l.map f).flatten = l := by
  induction l with
  | nil => rfl
  | cons c rest ih =>
    simp only [List.map, List.flatten_cons, h c (by simp)]
    rw [ih (fun d hd => h d (List.mem_cons_of_mem _ hd))]
    rfl

theorem generate_slug_fix {s : String}
    (hmem : ∀ c ∈ s.data, isSlugChar c = true)
    (hhead : s.data.head? ≠ some '-')
    (hlast : s.data.getLast? ≠ some '-')
    (htwo : noTwoHyphens s.data = true) :
    generate_slug s = s := by
  have h1 : s.data.map pyLowerChar = s.data := by
    have := List.map_congr_left (l := s.data) (f := pyLowerChar) (g := id)
      (fun c hc => pyLowerChar_fix (hmem c hc))
    simpa using this
  have h2 : (s.data.map nfdChar).flatten = s.data :=
    flatten_map_of_singleton (fun c hc => nfdChar_fix (hmem c hc))
  have h3 : s.data.filter (fun c => !(isMn c)) = s.data := by
    rw [List.filter_eq_self]
    intro c hc
    simp [isMn_fix (hmem c hc)]
  have h4 : subRuns false s.data = s.data :=
    subRuns_fix hmem htwo (fun h => by simp at h)
  have h5 : s.data.dropWhile isHyphB = s.data := dropWhile_fix hhead
  have h6 : dropTrailIf isHyphB s.data = s.data := by
    refine dropTrailIf_fix ?_
    intro x hx
    simp only [isHyphB, beq_eq_false_iff_ne]
    intro he; subst he; exact hlast hx
  calc generate_slug s
      = ⟨stripHyphens (subRuns false
          (((s.data.map pyLowerChar).map nfdChar).flatten.filter (fun c => !(isMn c))))⟩ := rfl
    _ = s := by rw [h1, h2, h3, h4]; unfold stripHyphens; rw [h5, h6]

/-! ## The Python value model

`yaml.safe_load` produces strings, integers, `None`, lists and
string-keyed dictionaries; these are the shapes front matter takes.
Python's dynamic-typing failures (`TypeError`, `AttributeError`, …) are
explicit `Except PyErr` results and propagate exactly where the script
has no `try`/`except`. -/

inductive Yaml where
  | str  : String → Yaml
  | int  : Int → Yaml
  | null : Yaml
  | list : List Yaml → Yaml
  | map  : List (String × Yaml) → Yaml

/-- The Python exceptions that the script's operations can raise. -/
inductive PyErr where
  | typeError
  | attributeError
  | keyError
  | yamlError
  | osError
  deriving DecidableEq

/-- First-match association-list lookup: Python `dict` access (keys are
unique in a dict, so first match is the match). -/
def lookupA {α : Type} : List (String × α) → String → Option α
  | [], _ => none
  | (k, v) :: rest, f => if k = f then some v else lookupA rest f

/-- Python `dict` assignment `d[f] = v`: replace in place if the key
exists (keeping its position), else append the new key at the end. -/
def setA {α : Type} : List (String × α) → String → α → List (String × α)
  | [], f, v => [(f, v)]
  | (k, w) :: rest, f, v =>
    if k = f then (f, v) :: rest else (k, w) :: setA rest f v

/-- Bool substring test (Python `needle in haystack` on `str`). -/
def containsSub (hay needle : List Char) : Bool :=
  match hay with
  | [] => needle.isEmpty
  | _ :: rest => needle.isPrefixOf hay || containsSub rest needle

/-- Python `field in x`: key test on a dict, substring test on a string,
membership on a list, `TypeError` on `None`/numbers. -/
def pyContains : Yaml → String → Except PyErr Bool
  | .map l, f => .ok ((lookupA l f).isSome)
  | .str s, f => .ok (containsSub s.data f.data)
  | .list l, f => .ok (l.any fun y => match y with | .str s => s == f | _ => false)
  | .int _, _ => .error .typeError
  | .null, _ => .error .typeError

/-- Python `x[field]`: dict item access (`KeyError` when missing),
`TypeError` on every non-dict value. -/
def pyGet : Yaml → String → Except PyErr Yaml
  | .map l, f =>
    match lookupA l f with
    | some v => .ok v
    | none => .error .keyError
  | _, _ => .error .typeError

/-- Python `x[field] = v`: dict item assignment, `TypeError` on every
non-dict value. -/
def pySet : Yaml → String → Yaml → Except PyErr Yaml
  | .map l, f, v => .ok (.map (setA l f v))
  | _, _, _ => .error .typeError

/-- Python `s.startswith(pre)` on strings. -/
def pyStartsWith (s pre : String) : Bool := pre.data.isPrefixOf s.data

/-- Python `s.endswith(suf)` on strings (line 144's `.md` filter). -/
def pyEndsWith (s suf : String) : Bool :=
  suf.data.reverse.isPrefixOf s.data.reverse

/-- Python `str.strip()`: drop leading and trailing whitespace (applied to
the API response text). -/
def pyStrip (s : String) : String := ⟨dropTrailIf isWS (s.data.dropWhile isWS)⟩

/-- Python `f"...{v}"` interpolation of a front-matter value into the
prompt text (`str()` of the value; container rendering abbreviated). -/
def pyStr : Yaml → String
  | .str s => s
  | .int n => toString n
  | .null => "None"
  | .list _ => "[...]"
  | .map _ => "\x7b...\x7d"

/-- The user prompt built by `translate_text` (lines 39–41). -/
def textPrompt (src tgt : String) (v : Yaml) : String :=
  "Translate the following text from " ++ src ++ " to " ++ tgt ++ ":\n\n" ++ pyStr v

/-- The user prompt built by `translate_markdown` (lines 57–59). -/
def mdPrompt (src tgt : String) (t : String) : String :=
  "Translate the following Markdown content from " ++ src ++ " to " ++ tgt ++
  ", preserving the Markdown formatting, code blocks, links, and images:\n\n" ++ t

/-- `translate_text` (lines 39–55).  The external OpenAI call is the
oracle `o`: `some r` is a successful response (whose content the script
strips), `none` is any raised fault, which the `except` clause turns into
the unchanged input. -/
def translate_text (o : String → Option String) (src tgt : String) (v : Yaml) : Yaml :=
  match o (textPrompt src tgt v) with
  | some r => .str (pyStrip r)
  | none => v

/-- `translate_markdown` (lines 57–73): same fail-open wrapper for the
whole Markdown body. -/
def translate_markdown (o : String → Option String) (src tgt : String) (t : String) : String :=
  match o (mdPrompt src tgt t) with
  | some r => pyStrip r
  | none => t

/-! ## The front-matter transformer (lines 75–103) -/

/-- One iteration of the scalar-field loop (lines 79–81):
`if field in fm: fm[field] = translate_text(fm[field], ...)`. -/
def transScalarField (o : String → Option String) (src tgt f : String)
    (fm : Yaml) : Except PyErr Yaml :=
  match pyContains fm f with
  | .error e => .error e
  | .ok false => .ok fm
  | .ok true =>
    match pyGet fm f with
    | .error e => .error e
    | .ok v => pySet fm f (translate_text o src tgt v)

/-- One iteration of the categories/tags loop (lines 84–90): translate a
list element-wise, any other value as a single string. -/
def transListField (o : String → Option String) (src tgt f : String)
    (fm : Yaml) : Except PyErr Yaml :=
  match pyContains fm f with
  | .error e => .error e
  | .ok false => .ok fm
  | .ok true =>
    match pyGet fm f with
    | .error e => .error e
    | .ok (.list items) => pySet fm f (.list (items.map (translate_text o src tgt)))
    | .ok v => pySet fm f (translate_text o src tgt v)

/-- The slug update (lines 92–95): `generate_slug(fm['title'])` calls
`.lower()` on the value, which raises `AttributeError` on any non-string. -/
def slugStep (fm : Yaml) : Except PyErr Yaml :=
  match pyContains fm "title" with
  | .error e => .error e
  | .ok false => .ok fm
  | .ok true =>
    match pyGet fm "title" with
    | .error e => .error e
    | .ok (.str s) => pySet fm "slug" (.str (generate_slug s))
    | .ok _ => .error .attributeError

/-- The permalink update (lines 97–101): prefix `/<code>` unless the
value already starts with `/<code>/`; `.startswith` raises
`AttributeError` on a non-string value. -/
def permalinkStep (code : String) (fm : Yaml) : Except PyErr Yaml :=
  match pyContains fm "permalink" with
  | .error e => .error e
  | .ok false => .ok fm
  | .ok true =>
    match pyGet fm "permalink" with
    | .error e => .error e
    | .ok (.str p) =>
      if pyStartsWith p ("/" ++ code ++ "/") then .ok fm
      else pySet fm "permalink" (.str ("/" ++ code ++ p))
    | .ok _ => .error .attributeError

/-- `translate_front_matter` (lines 75–103): the loops unrolled in the
script's order — title, subheadline, teaser, categories, tags, slug,
permalink.  Exceptions propagate (the function has no handler). -/
def translate_front_matter (code : String) (o : String → Option String)
    (src tgt : String) (fm : Yaml) : Except PyErr Yaml :=
  match transScalarField o src tgt "title" fm with
  | .error e => .error e
  | .ok fm1 =>
    match transScalarField o src tgt "subheadline" fm1 with
    | .error e => .error e
    | .ok fm2 =>
      match transScalarField o src tgt "teaser" fm2 with
      | .error e => .error e
      | .ok fm3 =>
        match transListField o src tgt "categories" fm3 with
        | .error e => .error e
        | .ok fm4 =>
          match transListField o src tgt "tags" fm4 with
          | .error e => .error e
          | .ok fm5 =>
            match slugStep fm5 with
            | .error e => .error e
            | .ok fm6 => permalinkStep code fm6

/-- Front-matter lookup on a `Yaml` value (for stating results). -/
def lookupFM : Yaml → String → Option Yaml
  | .map l, k => lookupA l k
  | _, _ => none

/-! ### Pure descriptions of the transformer's stages on dictionaries -/

/-- What one scalar-field iteration does to the underlying dictionary. -/
def mapStageScalar (o : String → Option String) (src tgt f : String)
    (l : List (String × Yaml)) : List (String × Yaml) :=
  match lookupA l f with
  | some v => setA l f (translate_text o src tgt v)
  | none => l

/-- lines 86–90: a list value is translated element-wise, any other
value as a single string. -/
def trListVal (o : String → Option String) (src tgt : String) : Yaml → Yaml
  | .list items => .list (items.map (translate_text o src tgt))
  | v => translate_text o src tgt v

/-- What one categories/tags iteration does to the underlying dictionary. -/
def mapStageList (o : String → Option String) (src tgt f : String)
    (l : List (String × Yaml)) : List (String × Yaml) :=
  match lookupA l f with
  | some v => setA l f (trListVal o src tgt v)
  | none => l

/-- The five translation loops (title, subheadline, teaser, categories,
tags) composed, innermost first. -/
def scalarListStages (o : String → Option String) (src tgt : String)
    (l : List (String × Yaml)) : List (String × Yaml) :=
  mapStageList o src tgt "tags"
    (mapStageList o src tgt "categories"
      (mapStageScalar o src tgt "teaser"
        (mapStageScalar o src tgt "subheadline"
          (mapStageScalar o src tgt "title" l))))

theorem lookupA_setA {α : Type} (l : List (String × α)) (f k : String) (v : α) :
    lookupA (setA l f v) k = if k = f then some v else lookupA l k := by
  induction l with
  | nil =>
    show (if f = k then some v else none) = if k = f then some v else none
    by_cases h : f = k
    · rw [if_pos h, if_pos h.symm]
    · rw [if_neg h, if_neg (fun he => h he.symm)]
  | cons e rest ih =>
    obtain ⟨k', w⟩ := e
    by_cases h1 : k' = f
    · have hs : setA ((k', w) :: rest) f v = (f, v) :: rest := by
        simp [setA, h1]
      rw [hs]
      show (if f = k then some v else lookupA rest k) = _
      by_cases h2 : f = k
      · rw [if_pos h2, if_pos h2.symm]
      · rw [if_neg h2, if_neg (fun he => h2 he.symm)]
        have h3 : k' ≠ k := fun he => h2 (h1 ▸ he)
        show lookupA rest k = (if k' = k then some w else lookupA rest k)
        rw [if_neg h3]
    · have hs : setA ((k', w) :: rest) f v = (k', w) :: setA rest f v := by
        simp [setA, h1]
      rw [hs]
      show (if k' = k then some w else lookupA (setA rest f v) k) = _
      by_cases h2 : k' = k
      · rw [if_pos h2]
        have h3 : ¬(k = f) := fun he => h1 (h2.trans he)
        rw [if_neg h3]
        show some w = (if k' = k then some w else lookupA rest k)
        rw [if_pos h2]
      · rw [if_neg h2, ih]
        by_cases h3 : k = f
        · rw [if_pos h3, if_pos h3]
        · rw [if_neg h3, if_neg h3]
          show lookupA rest k = (if k' = k then some w else lookupA rest k)
          rw [if_neg h2]

theorem transScalarField_map (o : String → Option String) (src tgt f : String)
    (l : List (String × Yaml)) :
    transScalarField o src tgt f (.map l) = .ok (.map (mapStageScalar o src tgt f l)) := by
  unfold transScalarField mapStageScalar
  cases h : lookupA l f with
  | none => simp [pyContains, h]
  | some v => simp [pyContains, pyGet, pySet, h]

theorem transListField_map (o : String → Option String) (src tgt f : String)
    (l : List (String × Yaml)) :
    transListField o src tgt f (.map l) = .ok (.map (mapStageList o src tgt f l)) := by
  unfold transListField mapStageList
  cases h : lookupA l f with
  | none => simp [pyContains, h]
  | some v => cases v <;> simp [pyContains, pyGet, pySet, trListVal, h]

theorem slugStep_map (l : List (String × Yaml)) :
    slugStep (.map l) =
      match lookupA l "title" with
      | none => .ok (.map l)
      | some (.str s) => .ok (.map (setA l "slug" (.str (generate_slug s))))
      | some _ => .error .attributeError := by
  unfold slugStep
  cases h : lookupA l "title" with
  | none => simp [pyContains, h]
  | some t => cases t <;> simp [pyContains, pyGet, pySet, h]

theorem permalinkStep_map (code : String) (l : List (String × Yaml)) :
    permalinkStep code (.map l) =
      match lookupA l "permalink" with
      | none => .ok (.map l)
      | some (.str p) =>
        if pyStartsWith p ("/" ++ code ++ "/") then .ok (.map l)
        else .ok (.map (setA l "permalink" (.str ("/" ++ code ++ p))))
      | some _ => .error .attributeError := by
  unfold permalinkStep
  cases h : lookupA l "permalink" with
  | none => simp [pyContains, h]
  | some p =>
    cases p <;> simp [pyContains, pyGet, pySet, h]

theorem tfm_map_eq (code : String) (o : String → Option String) (src tgt : String)
    (l : List (String × Yaml)) :
    translate_front_matter code o src tgt (.map l) =
      match slugStep (.map (scalarListStages o src tgt l)) with
      | .error e => .error e
      | .ok fm6 => permalinkStep code fm6 := by
  unfold translate_front_matter scalarListStages
  simp only [transScalarField_map, transListField_map]

theorem lookup_mapStageScalar (o : String → Option String) (src tgt f : String)
    (l : List (String × Yaml)) (k : String) :
    lookupA (mapStageScalar o src tgt f l) k =
      if k = f then (lookupA l f).map (translate_text o src tgt)
      else lookupA l k := by
  unfold mapStageScalar
  cases h : lookupA l f with
  | none => by_cases hk : k = f <;> simp [h, hk]
  | some v => by_cases hk : k = f <;> simp [lookupA_setA, h, hk]

theorem lookup_mapStageList (o : String → Option String) (src tgt f : String)
    (l : List (String × Yaml)) (k : String) :
    lookupA (mapStageList o src tgt f l) k =
      if k = f then (lookupA l f).map (trListVal o src tgt)
      else lookupA l k := by
  unfold mapStageList
  cases h : lookupA l f with
  | none => by_cases hk : k = f <;> simp [h, hk]
  | some v => by_cases hk : k = f <;> simp [lookupA_setA, h, hk]

theorem lookup_stages_of_ne (o : String → Option String) (src tgt : String)
    (l : List (String × Yaml)) (k : String)
    (h1 : k ≠ "title") (h2 : k ≠ "subheadline") (h3 : k ≠ "teaser")
    (h4 : k ≠ "categories") (h5 : k ≠ "tags") :
    lookupA (scalarListStages o src tgt l) k = lookupA l k := by
  unfold scalarListStages
  rw [lookup_mapStageList, if_neg h5, lookup_mapStageList, if_neg h4,
    lookup_mapStageScalar, if_neg h3, lookup_mapStageScalar, if_neg h2,
    lookup_mapStageScalar, if_neg h1]

theorem lookup_stages_title (o : String → Option String) (src tgt : String)
    (l : List (String × Yaml)) :
    lookupA (scalarListStages o src tgt l) "title" =
      (lookupA l "title").map (translate_text o src tgt) := by
  unfold scalarListStages
  rw [lookup_mapStageList, if_neg (by decide), lookup_mapStageList,
    if_neg (by decide), lookup_mapStageScalar, if_neg (by decide),
    lookup_mapStageScalar, if_neg (by decide), lookup_mapStageScalar, if_pos rfl]

theorem lookup_stages_tags (o : String → Option String) (src tgt : String)
    (l : List (String × Yaml)) :
    lookupA (scalarListStages o src tgt l) "tags" =
      (lookupA l "tags").map (trListVal o src tgt) := by
  unfold scalarListStages
  rw [lookup_mapStageList, if_pos rfl, lookup_mapStageList, if_neg (by decide),
    lookup_mapStageScalar, if_neg (by decide), lookup_mapStageScalar,
    if_neg (by decide), lookup_mapStageScalar, if_neg (by decide)]

theorem lookup_stages_categories (o : String → Option String) (src tgt : String)
    (l : List (String × Yaml)) :
    lookupA (scalarListStages o src tgt l) "categories" =
      (lookupA l "categories").map (trListVal o src tgt) := by
  unfold scalarListStages
  rw [lookup_mapStageList, if_neg (by decide), lookup_mapStageList, if_pos rfl,
    lookup_mapStageScalar, if_neg (by decide), lookup_mapStageScalar,
    if_neg (by decide), lookup_mapStageScalar, if_neg (by decide)]

theorem lookup_stages_none (o : String → Option String) (src tgt : String)
    (l : List (String × Yaml)) (k : String) (h : lookupA l k = none) :
    lookupA (scalarListStages o src tgt l) k = none := by
  by_cases h1 : k = "title"
  · subst h1; rw [lookup_stages_title, h]; rfl
  by_cases h4 : k = "categories"
  · subst h4; rw [lookup_stages_categories, h]; rfl
  by_cases h5 : k = "tags"
  · subst h5; rw [lookup_stages_tags, h]; rfl
  by_cases h2 : k = "subheadline"
  · subst h2
    unfold scalarListStages
    rw [lookup_mapStageList, if_neg (by decide), lookup_mapStageList,
      if_neg (by decide), lookup_mapStageScalar, if_neg (by decide),
      lookup_mapStageScalar, if_pos rfl, lookup_mapStageScalar,
      if_neg (by decide), h]
    rfl
  by_cases h3 : k = "teaser"
  · subst h3
    unfold scalarListStages
    rw [lookup_mapStageList, if_neg (by decide), lookup_mapStageList,
      if_neg (by decide), lookup_mapStageScalar, if_pos rfl,
      lookup_mapStageScalar, if_neg (by decide), lookup_mapStageScalar,
      if_neg (by decide), h]
    rfl
  · rw [lookup_stages_of_ne o src tgt l k h1 h2 h3 h4 h5, h]

/-! ### Success-path characterization of the transformer -/

theorem permalinkStep_spec {code : String} {L : List (String × Yaml)} {fm' : Yaml}
    (h : permalinkStep code (.map L) = .ok fm') :
    ∃ m, fm' = .map m
      ∧ (∀ k, k ≠ "permalink" → lookupA m k = lookupA L k)
      ∧ (∀ p, lookupA L "permalink" = some (.str p) →
          lookupA m "permalink" = some (.str
            (if pyStartsWith p ("/" ++ code ++ "/") then p else "/" ++ code ++ p)))
      ∧ (lookupA L "permalink" = none → lookupA m "permalink" = none) := by
  rw [permalinkStep_map] at h
  cases hP : lookupA L "permalink" with
  | none =>
    simp only [hP] at h
    refine ⟨L, (Except.ok.inj h).symm, fun k _ => rfl, ?_, fun _ => hP⟩
    intro p hp
    exact Option.noConfusion hp
  | some pv =>
    cases pv with
    | str p =>
      simp only [hP] at h
      by_cases hsw : pyStartsWith p ("/" ++ code ++ "/")
      · rw [if_pos hsw] at h
        refine ⟨L, (Except.ok.inj h).symm, fun k _ => rfl, ?_, ?_⟩
        · intro p' hp'
          have hpp : p = p' := Yaml.str.inj (Option.some.inj hp')
          subst hpp
          rw [hP, if_pos hsw]
        · intro hn; exact Option.noConfusion hn
      · rw [if_neg hsw] at h
        refine ⟨setA L "permalink" (.str ("/" ++ code ++ p)),
          (Except.ok.inj h).symm, ?_, ?_, ?_⟩
        · intro k hk; rw [lookupA_setA, if_neg hk]
        · intro p' hp'
          have hpp : p = p' := Yaml.str.inj (Option.some.inj hp')
          subst hpp
          rw [lookupA_setA, if_pos rfl, if_neg hsw]
        · intro hn; exact Option.noConfusion hn
    | int n => simp [hP] at h
    | null => simp [hP] at h
    | list items => simp [hP] at h
    | map mm => simp [hP] at h

theorem tfm_ok_spec {code : String} {o : String → Option String} {src tgt : String}
    {l : List (String × Yaml)} {fm' : Yaml}
    (h : translate_front_matter code o src tgt (.map l) = .ok fm') :
    ∃ m, fm' = .map m
      ∧ (∀ k, k ≠ "slug" → k ≠ "permalink" →
          lookupA m k = lookupA (scalarListStages o src tgt l) k)
      ∧ (∀ p, lookupA l "permalink" = some (.str p) →
          lookupA m "permalink" = some (.str
            (if pyStartsWith p ("/" ++ code ++ "/") then p else "/" ++ code ++ p)))
      ∧ (lookupA l "permalink" = none → lookupA m "permalink" = none)
      ∧ (∀ t, lookupA l "title" = some t →
          ∃ s, translate_text o src tgt t = .str s ∧
            lookupA m "slug" = some (.str (generate_slug s)))
      ∧ (lookupA l "title" = none → lookupA m "slug" = lookupA l "slug") := by
  rw [tfm_map_eq, slugStep_map] at h
  have hperm : lookupA (scalarListStages o src tgt l) "permalink" = lookupA l "permalink" :=
    lookup_stages_of_ne o src tgt l _ (by decide) (by decide) (by decide)
      (by decide) (by decide)
  have hslugS : lookupA (scalarListStages o src tgt l) "slug" = lookupA l "slug" :=
    lookup_stages_of_ne o src tgt l _ (by decide) (by decide) (by decide)
      (by decide) (by decide)
  cases hT : lookupA (scalarListStages o src tgt l) "title" with
  | none =>
    simp only [hT] at h
    obtain ⟨m, hm, hk, hsome, hnone⟩ := permalinkStep_spec h
    have htitle_l : lookupA l "title" = none := by
      rw [lookup_stages_title] at hT
      cases hl : lookupA l "title" with
      | none => rfl
      | some t => rw [hl] at hT; exact Option.noConfusion hT
    refine ⟨m, hm, ?_, ?_, ?_, ?_, ?_⟩
    · intro k _ hkp; rw [hk k hkp]
    · intro p hp; exact hsome p (by rw [hperm]; exact hp)
    · intro hn; exact hnone (by rw [hperm]; exact hn)
    · intro t ht; rw [htitle_l] at ht; exact Option.noConfusion ht
    · intro _; rw [hk "slug" (by decide), hslugS]
  | some tv =>
    cases tv with
    | str s =>
      simp only [hT] at h
      obtain ⟨m, hm, hk, hsome, hnone⟩ := permalinkStep_spec h
      have hLperm : lookupA (setA (scalarListStages o src tgt l) "slug"
          (.str (generate_slug s))) "permalink" = lookupA l "permalink" := by
        rw [lookupA_setA, if_neg (by decide), hperm]
      refine ⟨m, hm, ?_, ?_, ?_, ?_, ?_⟩
      · intro k hks hkp
        rw [hk k hkp, lookupA_setA, if_neg hks]
      · intro p hp; exact hsome p (by rw [hLperm]; exact hp)
      · intro hn; exact hnone (by rw [hLperm]; exact hn)
      · intro t ht
        rw [lookup_stages_title, ht] at hT
        refine ⟨s, Option.some.inj hT, ?_⟩
        rw [hk "slug" (by decide), lookupA_setA, if_pos rfl]
      · intro hn
        rw [lookup_stages_title, hn] at hT
        exact Option.noConfusion hT
    | int n => simp [hT] at h
    | null => simp [hT] at h
    | list items => simp [hT] at h
    | map mm => simp [hT] at h

/-! ### String-prefix facts for the permalink invariant -/

theorem isPrefixOf_append_same : ∀ (l a b : List Char),
    List.isPrefixOf (l ++ a) (l ++ b) = List.isPrefixOf a b := by
  intro l a b
  induction l with
  | nil => rfl
  | cons x xs ih => simp [List.isPrefixOf, ih]

theorem startsWith_prefixed {code p : String} (hp : p.data.head? = some '/') :
    pyStartsWith ("/" ++ code ++ p) ("/" ++ code ++ "/") = true := by
  unfold pyStartsWith
  rw [String.data_append, String.data_append, String.data_append,
    String.data_append]
  show List.isPrefixOf ((['/'] ++ code.data) ++ ['/'])
    ((['/'] ++ code.data) ++ p.data) = true
  rw [List.append_assoc, List.append_assoc, isPrefixOf_append_same]
  cases hd : p.data with
  | nil => rw [hd] at hp; exact Option.noConfusion hp
  | cons c cs =>
    rw [hd] at hp
    have : c = '/' := Option.some.inj hp
    subst this
    simp [List.isPrefixOf]

/-! ## The per-file transformation (lines 105–138)

The front-matter split is `re.match(r'---\s*\n(.*?)\n---\s*\n(.*)',
content, re.DOTALL)`.  The matcher below implements this pattern with the
regex engine's backtracking order: the leading `\s*` is greedy (longest
first), group 1 is lazy (shortest first), and each `\s*\n` consumes up to
the last newline of a whitespace run. -/

/-- Match `\s*\n` against `ds`, greedy `\s*` with backtracking: try to
consume `j` whitespace characters (largest `j` first) followed by a
newline; return the remainder after the newline. -/
def tailMatchAux (ds : List Char) : Nat → Option (List Char)
  | 0 =>
    match ds with
    | '\n' :: rest => some rest
    | _ => none
  | j + 1 =>
    match ds.drop (j + 1) with
    | '\n' :: rest => some rest
    | _ => tailMatchAux ds j

/-- Match `\s*\n` at the head of `ds` (whitespace budget = the maximal
whitespace run). -/
def tailMatch (ds : List Char) : Option (List Char) :=
  tailMatchAux ds ((ds.takeWhile isWS).length)

/-- Does `\n---\s*\n` match at this position?  If so return group 2
(everything after). -/
def sepHere : List Char → Option (List Char)
  | '\n' :: '-' :: '-' :: '-' :: rest => tailMatch rest
  | _ => none

/-- Lazy search for the separator `\n---\s*\n`: try the current position
first (group 1 shortest), accumulating group-1 characters in reverse. -/
def findSep (acc : List Char) : List Char → Option (String × String)
  | [] => none
  | c :: rest =>
    match sepHere (c :: rest) with
    | some g2 => some (⟨acc.reverse⟩, ⟨g2⟩)
    | none => findSep (c :: acc) rest

/-- After the literal `---`: try each greedy `\s*` length `j` (largest
first), require a newline, then search lazily for the separator. -/
def matchFM (cs : List Char) : Nat → Option (String × String)
  | 0 =>
    match cs with
    | '\n' :: rest => findSep [] rest
    | _ => none
  | j + 1 =>
    (match cs.drop (j + 1) with
     | '\n' :: rest => findSep [] rest
     | _ => none) <|> matchFM cs j

/-- The front-matter split of `translate_file` (line 111): `some (front
matter, body)` when the regex matches, `none` otherwise. -/
def splitFM (content : String) : Option (String × String) :=
  match content.data with
  | '-' :: '-' :: '-' :: cs => matchFM cs ((cs.takeWhile isWS).length)
  | _ => none

/-- `translate_file` (lines 105–138) up to the filesystem write: returns
`ok none` when no front matter is found (the file is skipped with a log
line), `ok (some newContent)` on success, and a propagated exception
otherwise.  `yload` is `yaml.safe_load` and `ydump` is `yaml.dump` (both
trusted library routines); `o`/`om` are the external translation oracles
for text and Markdown. -/
def translate_file (yload : String → Except PyErr Yaml) (ydump : Yaml → String)
    (o om : String → Option String) (code src tgt : String)
    (content : String) : Except PyErr (Option String) :=
  match splitFM content with
  | none => .ok none
  | some (fmStr, body) =>
    match yload fmStr with
    | .error e => .error e
    | .ok fmData =>
      match translate_front_matter code o src tgt fmData with
      | .error e => .error e
      | .ok fmData2 =>
        .ok (some ("---\n" ++ ydump fmData2 ++ "---\n" ++
          translate_markdown om src tgt body))

/-! ### Instrumentation: number of external translation calls

Each invocation of `translate_text`/`translate_markdown` performs exactly
one `client.chat.completions.create` call (successful or faulting).
These counters mirror the control flow above and count those calls. -/

/-- Calls made by one scalar-field iteration. -/
def scalarFieldCalls (fm : Yaml) (f : String) : Nat :=
  match pyContains fm f with
  | .ok true =>
    match pyGet fm f with
    | .ok _ => 1
    | .error _ => 0
  | _ => 0

/-- Calls made by one categories/tags iteration. -/
def listFieldCalls (fm : Yaml) (f : String) : Nat :=
  match pyContains fm f with
  | .ok true =>
    match pyGet fm f with
    | .ok (.list items) => items.length
    | .ok _ => 1
    | .error _ => 0
  | _ => 0

/-- Calls made by `translate_front_matter` (counting stops where an
exception aborts the run). -/
def tfmCalls (o : String → Option String) (src tgt : String) (fm : Yaml) : Nat :=
  scalarFieldCalls fm "title" +
  match transScalarField o src tgt "title" fm with
  | .error _ => 0
  | .ok fm1 =>
    scalarFieldCalls fm1 "subheadline" +
    match transScalarField o src tgt "subheadline" fm1 with
    | .error _ => 0
    | .ok fm2 =>
      scalarFieldCalls fm2 "teaser" +
      match transScalarField o src tgt "teaser" fm2 with
      | .error _ => 0
      | .ok fm3 =>
        listFieldCalls fm3 "categories" +
        match transListField o src tgt "categories" fm3 with
        | .error _ => 0
        | .ok fm4 => listFieldCalls fm4 "tags"

/-- Calls made by `translate_file` on one file (body translation counts
one call, made only when the front-matter transformation succeeded). -/
def tfCalls (yload : String → Except PyErr Yaml) (o : String → Option String)
    (code src tgt : String) (content : String) : Nat :=
  match splitFM content with
  | none => 0
  | some (fmStr, _) =>
    match yload fmStr with
    | .error _ => 0
    | .ok y =>
      tfmCalls o src tgt y +
      match translate_front_matter code o src tgt y with
      | .error _ => 0
      | .ok _ => 1

/-! ## The orchestrator (`process_directory`, lines 140–156)

The filesystem is an association list from paths (relative to
`SOURCE_DIR`) to file contents; `os.walk`'s enumeration of one content
directory is the input path list.  `DEST_DIR = SOURCE_DIR /
DESTINATION_LANGUAGE_CODE`, so a source file's destination path is the
language code prefixed to its relative path. -/

/-- A filesystem: relative path ↦ content. -/
abbrev FS := List (String × String)

/-- `dest_file = DEST_DIR / relative_path` (lines 147–148), as a path
relative to `SOURCE_DIR`. -/
def destPath (code rel : String) : String := code ++ "/" ++ rel

/-- One iteration of the walk loop (lines 143–156) for a discovered file
`p`: skip when the destination exists, otherwise translate and write.
The state is the filesystem together with the cumulative number of
external translation calls. -/
def processOne (yload : String → Except PyErr Yaml) (ydump : Yaml → String)
    (o om : String → Option String) (code src tgt : String)
    (st : FS × Nat) (p : String) : Except PyErr (FS × Nat) :=
  if (lookupA st.1 (destPath code p)).isSome then .ok st
  else
    match lookupA st.1 p with
    | none => .error .osError
    | some content =>
      match translate_file yload ydump o om code src tgt content with
      | .error e => .error e
      | .ok none => .ok (st.1, st.2 + tfCalls yload o code src tgt content)
      | .ok (some newContent) =>
        .ok (setA st.1 (destPath code p) newContent,
          st.2 + tfCalls yload o code src tgt content)

/-- `process_directory` over the list of walked files, keeping only the
`.md` ones (line 144); an uncaught exception aborts the whole batch. -/
def processDir (yload : String → Except PyErr Yaml) (ydump : Yaml → String)
    (o om : String → Option String) (code src tgt : String)
    (st : FS × Nat) : List String → Except PyErr (FS × Nat)
  | [] => .ok st
  | p :: rest =>
    if pyEndsWith p ".md" then
      match processOne yload ydump o om code src tgt st p with
      | .error e => .error e
      | .ok st' => processDir yload ydump o om code src tgt st' rest
    else processDir yload ydump o om code src tgt st rest

/-! ## Claims -/

/-- C1: Fail-open translation — if the external translation call raises a
fault (oracle `none`), `translate_text` and `translate_markdown` return
their input unchanged, byte for byte. -/
theorem c1_fail_open (o om : String → Option String) (src tgt : String)
    (v : Yaml) (t : String)
    (h1 : o (textPrompt src tgt v) = none)
    (h2 : om (mdPrompt src tgt t) = none) :
    translate_text o src tgt v = v ∧ translate_markdown om src tgt t = t := by
  unfold translate_text translate_markdown
  rw [h1, h2]
  exact ⟨rfl, rfl⟩

theorem c1_fail_open_witness :
    translate_text (fun _ => none) "English" "French" (.str "Hello") = .str "Hello" ∧
    translate_markdown (fun _ => none) "English" "French" "# Body" = "# Body" :=
  c1_fail_open (fun _ => none) (fun _ => none) "English" "French"
    (.str "Hello") "# Body" rfl rfl

/-- C6: Slug Generator output shape — every output character is a
lowercase ASCII letter, digit or hyphen; no leading, trailing or doubled
hyphen; the empty input yields the empty string and `"Café Déjà Vu!"`
yields `"cafe-deja-vu"`. -/
theorem c6_slug_shape :
    (∀ t : String,
      (∀ c ∈ (generate_slug t).data, isSlugChar c = true) ∧
      (generate_slug t).data.head? ≠ some '-' ∧
      (generate_slug t).data.getLast? ≠ some '-' ∧
      noTwoHyphens (generate_slug t).data = true) ∧
    generate_slug "" = "" ∧
    generate_slug "Café Déjà Vu!" = "cafe-deja-vu" := by
  refine ⟨?_, by decide, by decide⟩
  intro t
  exact ⟨fun c hc => generate_slug_mem hc, generate_slug_head t,
    generate_slug_last t, generate_slug_noTwo t⟩

theorem c6_slug_shape_witness :
    isSlugChar 'a' = true ∧ noTwoHyphens (generate_slug "a  b").data = true :=
  ⟨(c6_slug_shape.1 "a  b").1 'a' (by decide), (c6_slug_shape.1 "a  b").2.2.2⟩

/-- C10 (implicit): `generate_slug` is idempotent — output already in
slug form is a fixed point. -/
theorem c10_slug_idempotent (t : String) :
    generate_slug (generate_slug t) = generate_slug t :=
  generate_slug_fix (fun _ hc => generate_slug_mem hc) (generate_slug_head t)
    (generate_slug_last t) (generate_slug_noTwo t)

/-- Apply the Front-Matter Transformer twice in a row (exceptions
propagate), as in re-running the batch over its own output. -/
def tfmTwice (code : String) (o : String → Option String) (src tgt : String)
    (fm : Yaml) : Except PyErr Yaml :=
  match translate_front_matter code o src tgt fm with
  | .error e => .error e
  | .ok fm1 => translate_front_matter code o src tgt fm1

/-- The permalink string of a transformer result, if any. -/
def permalinkStrE : Except PyErr Yaml → Option String
  | .ok (.map l) =>
    match lookupA l "permalink" with
    | some (.str s) => some s
    | _ => none
  | _ => none

/-- C3 counterexample: with destination code `fr`, the permalink
`"blog/post"` (no leading slash) becomes `"/frblog/post"` after one
application and `"/fr/frblog/post"` after two — the transformer is not
idempotent on it. -/
theorem c3_counterexample :
    permalinkStrE (tfmTwice "fr" (fun _ => none) "English" "French"
        (.map [("permalink", .str "blog/post")]))
      ≠ permalinkStrE (translate_front_matter "fr" (fun _ => none) "English" "French"
        (.map [("permalink", .str "blog/post")])) := by
  decide

/-- C3 (amended): for a front matter whose permalink string begins with
`/`, applying the Front-Matter Transformer twice with the same
destination code yields the same permalink value as applying it once. -/
theorem c3_permalink_idem {code : String} {o : String → Option String}
    {src tgt : String} {l : List (String × Yaml)} {fm1 fm2 : Yaml} {p : String}
    (hp : lookupA l "permalink" = some (.str p))
    (hslash : p.data.head? = some '/')
    (h1 : translate_front_matter code o src tgt (.map l) = .ok fm1)
    (h2 : translate_front_matter code o src tgt fm1 = .ok fm2) :
    lookupFM fm2 "permalink" = lookupFM fm1 "permalink" := by
  obtain ⟨m1, hm1, _, hsome1, _, _, _⟩ := tfm_ok_spec h1
  subst hm1
  obtain ⟨m2, hm2, _, hsome2, _, _, _⟩ := tfm_ok_spec h2
  subst hm2
  have hp1 := hsome1 p hp
  have hqpre : pyStartsWith
      (if pyStartsWith p ("/" ++ code ++ "/") then p else "/" ++ code ++ p)
      ("/" ++ code ++ "/") = true := by
    by_cases hsw : pyStartsWith p ("/" ++ code ++ "/")
    · rw [if_pos hsw]; exact hsw
    · rw [if_neg hsw]; exact startsWith_prefixed hslash
  have hp2 := hsome2 _ hp1
  show lookupA m2 "permalink" = lookupA m1 "permalink"
  rw [hp2, hp1, if_pos hqpre]

theorem c3_permalink_idem_witness :
    lookupFM (.map [("permalink", Yaml.str "/fr/about")]) "permalink"
      = lookupFM (.map [("permalink", Yaml.str "/fr/about")]) "permalink" :=
  @c3_permalink_idem "fr" (fun _ => none) "English" "French"
    [("permalink", .str "/about")]
    (.map [("permalink", .str "/fr/about")])
    (.map [("permalink", .str "/fr/about")])
    "/about" rfl rfl rfl rfl

/-- C4 counterexample: the permalink `"blog/post"` (no leading slash)
becomes `"/frblog/post"` after one application, which does not begin
with `"/fr/"`. -/
theorem c4_counterexample :
    permalinkStrE (translate_front_matter "fr" (fun _ => none) "English" "French"
        (.map [("permalink", .str "blog/post")])) = some "/frblog/post" ∧
    pyStartsWith "/frblog/post" ("/" ++ "fr" ++ "/") = false := by
  exact ⟨by decide, by decide⟩

/-- C4 (amended): for a front matter whose permalink string begins with
`/`, after one successful application of the Front-Matter Transformer the
permalink begins with `/<destination-language-code>/`. -/
theorem c4_prefix_invariant {code : String} {o : String → Option String}
    {src tgt : String} {l : List (String × Yaml)} {fm1 : Yaml} {p : String}
    (hp : lookupA l "permalink" = some (.str p))
    (hslash : p.data.head? = some '/')
    (h1 : translate_front_matter code o src tgt (.map l) = .ok fm1) :
    ∃ q, lookupFM fm1 "permalink" = some (.str q) ∧
      pyStartsWith q ("/" ++ code ++ "/") = true := by
  obtain ⟨m1, hm1, _, hsome1, _, _, _⟩ := tfm_ok_spec h1
  subst hm1
  refine ⟨_, hsome1 p hp, ?_⟩
  by_cases hsw : pyStartsWith p ("/" ++ code ++ "/")
  · rw [if_pos hsw]; exact hsw
  · rw [if_neg hsw]; exact startsWith_prefixed hslash

theorem c4_prefix_invariant_witness :
    ∃ q, lookupFM (.map [("permalink", Yaml.str "/fr/blog/post")]) "permalink"
        = some (.str q) ∧
      pyStartsWith q ("/" ++ "fr" ++ "/") = true :=
  @c4_prefix_invariant "fr" (fun _ => none) "English" "French"
    [("permalink", .str "/blog/post")]
    (.map [("permalink", .str "/fr/blog/post")])
    "/blog/post" rfl rfl rfl

/-- C7: categories/tags translation — a list value of N items becomes the
element-wise Text-Translator image (length and order preserved); a
non-list value is translated as a single string. -/
theorem c7_list_translation {code : String} {o : String → Option String}
    {src tgt : String} {l : List (String × Yaml)} {fm' : Yaml} {field : String}
    (hf : field = "categories" ∨ field = "tags")
    (h : translate_front_matter code o src tgt (.map l) = .ok fm') :
    (∀ items, lookupA l field = some (.list items) →
      lookupFM fm' field = some (.list (items.map (translate_text o src tgt)))) ∧
    (∀ v, lookupA l field = some v → (∀ its, v ≠ .list its) →
      lookupFM fm' field = some (translate_text o src tgt v)) := by
  obtain ⟨m, hm, hk, _, _, _, _⟩ := tfm_ok_spec h
  subst hm
  have hfield : lookupA m field = (lookupA l field).map (trListVal o src tgt) := by
    rcases hf with hf | hf <;> subst hf
    · rw [hk "categories" (by decide) (by decide), lookup_stages_categories]
    · rw [hk "tags" (by decide) (by decide), lookup_stages_tags]
  constructor
  · intro items hit
    show lookupA m field = _
    rw [hfield, hit]
    rfl
  · intro v hv hnl
    show lookupA m field = _
    rw [hfield, hv]
    cases v with
    | list its => exact absurd rfl (hnl its)
    | str s => rfl
    | int n => rfl
    | null => rfl
    | map mm => rfl

theorem c7_list_translation_witness :
    lookupFM (.map [("tags", Yaml.list [.str "X", .str "X"])]) "tags"
      = some (.list ([Yaml.str "a", Yaml.str "b"].map
          (translate_text (fun _ => some "X") "English" "French"))) :=
  (@c7_list_translation "fr" (fun _ => some "X") "English" "French"
    [("tags", .list [.str "a", .str "b"])]
    (.map [("tags", .list [.str "X", .str "X"])]) "tags"
    (Or.inr rfl) rfl).1 [.str "a", .str "b"] rfl

/-- C8: slug regeneration — when a title is present, the transformed
front matter's slug equals `generate_slug` of the translated title
(any pre-existing slug is overwritten; the slug value itself is never an
input of the Text Translator). -/
theorem c8_slug_regen {code : String} {o : String → Option String}
    {src tgt : String} {l : List (String × Yaml)} {fm' : Yaml} {t : Yaml}
    (ht : lookupA l "title" = some t)
    (h : translate_front_matter code o src tgt (.map l) = .ok fm') :
    ∃ s, translate_text o src tgt t = .str s ∧
      lookupFM fm' "slug" = some (.str (generate_slug s)) := by
  obtain ⟨m, hm, _, _, _, hslug, _⟩ := tfm_ok_spec h
  subst hm
  exact hslug t ht

theorem c8_slug_regen_witness :
    ∃ s, translate_text (fun _ => none) "English" "French" (.str "Hello World")
        = .str s ∧
      lookupFM (.map [("title", Yaml.str "Hello World"),
          ("slug", Yaml.str "hello-world")]) "slug"
        = some (.str (generate_slug s)) :=
  @c8_slug_regen "fr" (fun _ => none) "English" "French"
    [("title", .str "Hello World"), ("slug", .str "old")]
    (.map [("title", .str "Hello World"), ("slug", .str "hello-world")])
    (.str "Hello World") rfl rfl

/-- C9: frame condition — keys outside the recognized set pass through
unchanged, and no key other than `slug` is ever added. -/
theorem c9_frame {code : String} {o : String → Option String}
    {src tgt : String} {l : List (String × Yaml)} {fm' : Yaml}
    (h : translate_front_matter code o src tgt (.map l) = .ok fm') :
    (∀ k, k ∉ ["title", "subheadline", "teaser", "categories", "tags",
        "slug", "permalink"] → lookupFM fm' k = lookupA l k) ∧
    (∀ k, k ≠ "slug" → lookupA l k = none → lookupFM fm' k = none) := by
  obtain ⟨m, hm, hk, _, hpnone, _, _⟩ := tfm_ok_spec h
  subst hm
  constructor
  · intro k hknot
    simp only [List.mem_cons, List.not_mem_nil, or_false, not_or] at hknot
    obtain ⟨n1, n2, n3, n4, n5, n6, n7⟩ := hknot
    show lookupA m k = _
    rw [hk k n6 n7, lookup_stages_of_ne o src tgt l k n1 n2 n3 n4 n5]
  · intro k hks hkn
    by_cases hkp : k = "permalink"
    · subst hkp
      exact hpnone hkn
    · show lookupA m k = none
      rw [hk k hks hkp, lookup_stages_none o src tgt l k hkn]

theorem c9_frame_witness :
    lookupFM (.map [("author", Yaml.str "Pat"), ("title", Yaml.str "Hi"),
        ("slug", Yaml.str "hi")]) "author"
      = lookupA [("author", Yaml.str "Pat"), ("title", Yaml.str "Hi")] "author" ∧
    lookupFM (.map [("author", Yaml.str "Pat"), ("title", Yaml.str "Hi"),
        ("slug", Yaml.str "hi")]) "draft" = none :=
  ⟨(@c9_frame "fr" (fun _ => none) "English" "French"
      [("author", .str "Pat"), ("title", .str "Hi")]
      (.map [("author", .str "Pat"), ("title", .str "Hi"), ("slug", .str "hi")])
      rfl).1 "author" (by decide),
   (@c9_frame "fr" (fun _ => none) "English" "French"
      [("author", .str "Pat"), ("title", .str "Hi")]
      (.map [("author", .str "Pat"), ("title", .str "Hi"), ("slug", .str "hi")])
      rfl).2 "draft" (by decide) rfl⟩

/-- C5 counterexample: a file whose front-matter block is empty parses
(`yaml.safe_load ""` returns `None`) to a non-mapping value, and
`translate_file` raises `TypeError` (from `'title' in None` at line 80)
instead of handling it — the exception escapes and aborts the batch. -/
theorem c5_counterexample :
    translate_file (fun _ => .ok .null) (fun _ => "") (fun _ => none)
      (fun _ => none) "fr" "English" "French" "---\n\n---\nbody"
      = .error .typeError := by
  rfl

/-- C5 (amended): the regex non-match and external-capability faults are
handled inside `translate_file` and never raise; the exceptions that do
escape it are exactly those of YAML loading and of the front-matter
transformation (e.g. empty/non-mapping front matter, non-string title or
permalink), and they abort the batch. -/
theorem c5_amended (yload : String → Except PyErr Yaml) (ydump : Yaml → String)
    (o om : String → Option String) (code src tgt : String)
    (content : String) (e : PyErr)
    (h : translate_file yload ydump o om code src tgt content = .error e) :
    ∃ fmStr body, splitFM content = some (fmStr, body) ∧
      (yload fmStr = .error e ∨
        ∃ y, yload fmStr = .ok y ∧
          translate_front_matter code o src tgt y = .error e) := by
  unfold translate_file at h
  cases hs : splitFM content with
  | none =>
    simp only [hs] at h
    exact Except.noConfusion h
  | some pr =>
    obtain ⟨fmStr, body⟩ := pr
    simp only [hs] at h
    refine ⟨fmStr, body, rfl, ?_⟩
    cases hy : yload fmStr with
    | error e' =>
      simp only [hy] at h
      have he : e' = e := Except.error.inj h
      subst he
      exact Or.inl rfl
    | ok y =>
      simp only [hy] at h
      cases ht : translate_front_matter code o src tgt y with
      | error e' =>
        simp only [ht] at h
        have he : e' = e := Except.error.inj h
        subst he
        exact Or.inr ⟨y, rfl, ht⟩
      | ok fm2 =>
        simp only [ht] at h
        exact Except.noConfusion h

theorem c5_amended_witness :
    ∃ fmStr body, splitFM "---\n\n---\nbody" = some (fmStr, body) ∧
      ((fun _ => Except.ok Yaml.null : String → Except PyErr Yaml) fmStr
          = .error .typeError ∨
        ∃ y, (fun _ => Except.ok Yaml.null : String → Except PyErr Yaml) fmStr
            = .ok y ∧
          translate_front_matter "fr" (fun _ => none) "English" "French" y
            = .error .typeError) :=
  c5_amended (fun _ => .ok .null) (fun _ => "") (fun _ => none) (fun _ => none)
    "fr" "English" "French" "---\n\n---\nbody" .typeError rfl

/-- A skipped or translated file never disturbs an existing entry at an
unrelated or already-occupied destination. -/
theorem processOne_preserves {yload : String → Except PyErr Yaml}
    {ydump : Yaml → String} {o om : String → Option String}
    {code src tgt : String} {st st' : FS × Nat} {q d c : String}
    (hd : lookupA st.1 d = some c)
    (h : processOne yload ydump o om code src tgt st q = .ok st') :
    lookupA st'.1 d = some c := by
  unfold processOne at h
  by_cases hex : (lookupA st.1 (destPath code q)).isSome
  · rw [if_pos hex] at h
    rw [← Except.ok.inj h]
    exact hd
  · rw [if_neg hex] at h
    cases hq : lookupA st.1 q with
    | none =>
      simp only [hq] at h
      exact Except.noConfusion h
    | some content =>
      simp only [hq] at h
      cases ht : translate_file yload ydump o om code src tgt content with
      | error e =>
        simp only [ht] at h
        exact Except.noConfusion h
      | ok res =>
        cases res with
        | none =>
          simp only [ht] at h
          rw [← Except.ok.inj h]
          exact hd
        | some nc =>
          simp only [ht] at h
          rw [← Except.ok.inj h]
          show lookupA (setA st.1 (destPath code q) nc) d = some c
          rw [lookupA_setA]
          have hne : d ≠ destPath code q := by
            intro he
            apply hex
            rw [← he, hd]
            rfl
          rw [if_neg hne]
          exact hd

/-- The invariant of `processOne_preserves`, over the whole walk. -/
theorem processDir_preserves {yload : String → Except PyErr Yaml}
    {ydump : Yaml → String} {o om : String → Option String}
    {code src tgt : String} :
    ∀ (ps : List String) (st st' : FS × Nat) (d c : String),
      lookupA st.1 d = some c →
      processDir yload ydump o om code src tgt st ps = .ok st' →
      lookupA st'.1 d = some c := by
  intro ps
  induction ps with
  | nil =>
    intro st st' d c hd h
    rw [← Except.ok.inj h]
    exact hd
  | cons q rest ih =>
    intro st st' d c hd h
    simp only [processDir] at h
    by_cases hmd : pyEndsWith q ".md"
    · rw [if_pos hmd] at h
      cases hq : processOne yload ydump o om code src tgt st q with
      | error e =>
        simp only [hq] at h
        exact Except.noConfusion h
      | ok st1 =>
        simp only [hq] at h
        exact ih st1 st' d c (processOne_preserves hd hq) h
    · rw [if_neg hmd] at h
      exact ih st st' d c hd h

/-- C2: resumability / skip-if-exists — a discovered file whose computed
destination already exists is skipped: the orchestrator's step leaves the
filesystem and the external-call counter untouched (the File Transformer
is never invoked for it), and the destination file's contents survive the
whole batch unchanged. -/
theorem c2_skip_preserves {yload : String → Except PyErr Yaml}
    {ydump : Yaml → String} {o om : String → Option String}
    {code src tgt : String} {fs : FS} {calls : Nat} {p c : String}
    (h : lookupA fs (destPath code p) = some c) :
    processOne yload ydump o om code src tgt (fs, calls) p = .ok (fs, calls) ∧
    (∀ ps fs' calls',
      processDir yload ydump o om code src tgt (fs, calls) ps = .ok (fs', calls') →
      lookupA fs' (destPath code p) = some c) := by
  constructor
  · unfold processOne
    rw [if_pos (by rw [h]; rfl)]
  · intro ps fs' calls' hps
    exact processDir_preserves ps (fs, calls) (fs', calls') (destPath code p) c h hps

theorem c2_skip_preserves_witness :
    processOne (fun _ => Except.ok Yaml.null) (fun _ => "") (fun _ => none)
      (fun _ => none) "fr" "English" "French"
      ([("fr/pages/a.md", "OLD"), ("pages/a.md", "x")], 0) "pages/a.md"
      = .ok ([("fr/pages/a.md", "OLD"), ("pages/a.md", "x")], 0) ∧
    lookupA [("fr/pages/a.md", "OLD"), ("pages/a.md", "x")]
      (destPath "fr" "pages/a.md") = some "OLD" :=
  ⟨(@c2_skip_preserves (fun _ => .ok .null) (fun _ => "") (fun _ => none)
      (fun _ => none) "fr" "English" "French"
      [("fr/pages/a.md", "OLD"), ("pages/a.md", "x")] 0 "pages/a.md" "OLD"
      rfl).1,
   (@c2_skip_preserves (fun _ => .ok .null) (fun _ => "") (fun _ => none)
      (fun _ => none) "fr" "English" "French"
      [("fr/pages/a.md", "OLD"), ("pages/a.md", "x")] 0 "pages/a.md" "OLD"
      rfl).2 ["pages/a.md"] [("fr/pages/a.md", "OLD"), ("pages/a.md", "x")] 0
      rfl⟩
